import Mathlib

/-!
Verification of the WebRTC signaling / live-stream session coordinator of the
`harshava123/backend` repository.

The core under study lives in two near-duplicate files:
* the modern variant `WebRTCStreamingService` (src/unnamed/part_009), whose
  sessions carry `title`, `description` and a stored `viewerCount`, and whose
  start/end handlers perform a Supabase status update;
* the legacy variant `WebRTCService` (src/unnamed/part_010), whose sessions
  carry only `streamer`, `viewers`, `streamKey`, `createdAt` and which performs
  no database calls.

The registry (`this.activeStreams`, a JS `Map`) is embedded as an association
list `List (String × _)` whose operations mirror `Map.get` / `Map.set` /
`Map.delete` (insertion order preserved, `set` replaces in place, `delete`
filters out). JS `Set` fields become `Finset String`. Each socket event
handler becomes a pure function from a world (registry, socket.io room
membership, connected sockets) and the event's payload to a new world plus the
ordered list of emitted messages. The suspending Supabase call is abstracted
by its observable outcome (`DbOutcome`): the update succeeded, returned an
error object, or threw (caught by the handler's `try/catch`). Handlers whose
claims concern the *order* of effects additionally get a step-trace embedding
(`List Step`) listing their atomic actions in source order.

Delivery semantics of an emit follows the interface the spec assigns to the
transport: `socket.emit` / `socket.to(socketId)` delivers to the named socket
iff it is connected; `io.to(roomId)` delivers to every connected member of the
room. Sockets are identified by their socket id strings.
-/

/-! ## JS `Map` on string keys, as an association list -/

/-- `Map.get(k)`: the binding for `k`, if any. -/
def mapGet {α : Type} (m : List (String × α)) (k : String) : Option α :=
  match m with
  | [] => none
  | p :: t => if p.1 == k then some p.2 else mapGet t k

/-- `Map.set(k, v)`: replace the binding in place if `k` is present
(JS `Map.set` keeps insertion position), else append. -/
def mapSet {α : Type} (m : List (String × α)) (k : String) (v : α) :
    List (String × α) :=
  match m with
  | [] => [(k, v)]
  | p :: t => if p.1 == k then (k, v) :: t else p :: mapSet t k v

/-- `Map.delete(k)`: drop the binding for `k`; absent keys are a no-op. -/
def mapDelete {α : Type} (m : List (String × α)) (k : String) :
    List (String × α) :=
  m.filter (fun p => p.1 != k)

/-- The keys of the map, in insertion order. -/
def mapKeys {α : Type} (m : List (String × α)) : List String :=
  m.map Prod.fst

/-! ## Messages and emit targets -/

/-- The socket.io events emitted by the two services, with the payload fields
the handlers actually populate. Constant fields (`success: true`, fixed
human-readable `message` strings) are not repeated here except for the
distinguishing `message` of `stream-start-error`. -/
inductive Msg where
  | streamStartError (message : String)
  | webrtcStreamStarted (streamId : String)
  | streamNotFound (streamId : String)
  | viewerJoined (viewerId : String) (viewerCount : Nat)
  | webrtcStreamJoined (streamId streamerId : String) (viewerCount : Nat)
      (title description : String)
  | viewerLeft (viewerId : String) (viewerCount : Nat)
  | webrtcStreamEnded (streamId : String)
  | webrtcOffer (offer : String) (fromId streamId : String)
  | webrtcAnswer (answer : String) (fromId streamId : String)
  | webrtcIceCandidate (candidate : String) (fromId streamId : String)
  | streamStarted (streamId : String)
  | streamJoined (streamId streamerId : String) (viewerCount : Nat)
  | streamEnded (streamId : String)
deriving DecidableEq

/-- Where an emit is aimed: `sock id` models `socket.emit` on the socket named
`id` as well as `socket.to(id)` (a socket's personal room), `room r` models
`io.to(r)`. -/
inductive Target where
  | sock (id : String)
  | room (roomId : String)
deriving DecidableEq

/-- One emitted event: target plus message. -/
abbrev Emit := Target × Msg

/-- Observable outcome of the awaited Supabase `update` call: resolved with no
error, resolved with an `error` object, or rejected (caught by `try/catch`). -/
inductive DbOutcome where
  | ok
  | errorResult
  | thrown
deriving DecidableEq

/-! ## Sessions and worlds -/

/-- A session of the modern variant (part_009):
`{ streamer, viewers, streamKey, title, description, createdAt, viewerCount }`.
`createdAt` (`new Date()`) is a numeric timestamp. -/
structure Session where
  streamer : String
  viewers : Finset String
  streamKey : String
  title : String
  description : String
  createdAt : Nat
  viewerCount : Nat
deriving DecidableEq

/-- A session of the legacy variant (part_010):
`{ streamer, viewers, streamKey, createdAt }`. -/
structure LegacySession where
  streamer : String
  viewers : Finset String
  streamKey : String
  createdAt : Nat
deriving DecidableEq

/-- The state relevant to the modern service's handlers: the registry
`activeStreams`, socket.io room membership (room name to members, duplicates
never inserted), and the set of connected sockets (used by delivery). -/
structure World where
  activeStreams : List (String × Session)
  rooms : List (String × List String)
  connected : List String
deriving DecidableEq

/-- State of the legacy service (part_010). -/
structure LegacyWorld where
  activeStreams : List (String × LegacySession)
  rooms : List (String × List String)
  connected : List String
deriving DecidableEq

/-- `socket.join(roomId)`: add the socket to the room, never duplicating. -/
def roomJoin (rooms : List (String × List String)) (roomId sid : String) :
    List (String × List String) :=
  match mapGet rooms roomId with
  | some members =>
      if members.contains sid then rooms
      else mapSet rooms roomId (members ++ [sid])
  | none => rooms ++ [(roomId, [sid])]

/-- `socket.leave(roomId)`: remove the socket from the room if present. -/
def roomLeave (rooms : List (String × List String)) (roomId sid : String) :
    List (String × List String) :=
  match mapGet rooms roomId with
  | some members => mapSet rooms roomId (members.filter (fun x => x != sid))
  | none => rooms

/-- Members of a room (empty if the room does not exist). -/
def roomMembers (rooms : List (String × List String)) (roomId : String) :
    List String :=
  (mapGet rooms roomId).getD []

/-! ## Delivery semantics -/

/-- Whether an emit aimed at `t` reaches socket `c`, per the transport
interface: a socket-targeted emit reaches exactly the named socket when it is
connected; a room broadcast reaches every connected member of the room. -/
def Target.covers (w : World) : Target → String → Bool
  | Target.sock id, c => c == id && w.connected.contains c
  | Target.room r, c => (roomMembers w.rooms r).contains c && w.connected.contains c

/-- How many times socket `c` receives message `m` out of the emit list `es`,
with rooms and connectivity read from `w`. -/
def deliverCount (w : World) (es : List Emit) (m : Msg) (c : String) : Nat :=
  es.countP (fun e => Target.covers w e.1 c && e.2 == m)

/-! ## Modern variant (part_009): event handlers -/

/-- The `start-webrtc-stream` handler. Source order: await the Supabase update
keyed by `stream_key`; if it returned an error, emit `stream-start-error`
("Failed to update stream status") and return; otherwise
`activeStreams.set(streamId, {...})` with empty viewer set, `viewerCount: 0`
and `createdAt = new Date()`, then `socket.join(streamId)` and emit
`webrtc-stream-started` to the sender. A thrown promise lands in the `catch`,
which emits `stream-start-error` ("Failed to start stream"). -/
def startWebrtcStream (w : World) (sid streamId streamKey title description :
    String) (now : Nat) (db : DbOutcome) : World × List Emit :=
  match db with
  | DbOutcome.errorResult =>
      (w, [(Target.sock sid, Msg.streamStartError "Failed to update stream status")])
  | DbOutcome.thrown =>
      (w, [(Target.sock sid, Msg.streamStartError "Failed to start stream")])
  | DbOutcome.ok =>
      let s : Session :=
        { streamer := sid, viewers := ∅, streamKey := streamKey,
          title := title, description := description, createdAt := now,
          viewerCount := 0 }
      ({ w with
          activeStreams := mapSet w.activeStreams streamId s,
          rooms := roomJoin w.rooms streamId sid },
       [(Target.sock sid, Msg.webrtcStreamStarted streamId)])

/-- The `join-webrtc-stream` handler: if the stream is absent emit
`stream-not-found`; otherwise add the sender to `viewers`, recompute
`viewerCount = viewers.size`, `socket.join(streamId)`, notify the streamer
with `viewer-joined` and answer the sender with `webrtc-stream-joined`. -/
def joinWebrtcStream (w : World) (sid streamId : String) : World × List Emit :=
  match mapGet w.activeStreams streamId with
  | none => (w, [(Target.sock sid, Msg.streamNotFound streamId)])
  | some stream =>
      let v := insert sid stream.viewers
      let s' := { stream with viewers := v, viewerCount := v.card }
      ({ w with
          activeStreams := mapSet w.activeStreams streamId s',
          rooms := roomJoin w.rooms streamId sid },
       [(Target.sock stream.streamer, Msg.viewerJoined sid v.card),
        (Target.sock sid,
          Msg.webrtcStreamJoined streamId stream.streamer v.card
            stream.title stream.description)])

/-- The `webrtc-offer` handler: relay to `socket.to(targetId)` with `fromId`
and `streamId` added; no state change, no registry consultation. -/
def webrtcOfferH (w : World) (sid streamId offer targetId : String) :
    World × List Emit :=
  (w, [(Target.sock targetId, Msg.webrtcOffer offer sid streamId)])

/-- The `webrtc-answer` handler, same shape as the offer relay. -/
def webrtcAnswerH (w : World) (sid streamId answer targetId : String) :
    World × List Emit :=
  (w, [(Target.sock targetId, Msg.webrtcAnswer answer sid streamId)])

/-- The `webrtc-ice-candidate` handler, same shape as the offer relay. -/
def webrtcIceCandidateH (w : World) (sid streamId candidate targetId : String) :
    World × List Emit :=
  (w, [(Target.sock targetId, Msg.webrtcIceCandidate candidate sid streamId)])

/-- The `leave-webrtc-stream` handler: if the stream exists, delete the sender
from `viewers`, recompute `viewerCount`, and notify the streamer with
`viewer-left`; in all cases `socket.leave(streamId)`. The session entry itself
is never deleted here. -/
def leaveWebrtcStream (w : World) (sid streamId : String) : World × List Emit :=
  match mapGet w.activeStreams streamId with
  | none => ({ w with rooms := roomLeave w.rooms streamId sid }, [])
  | some stream =>
      let v := stream.viewers.erase sid
      let s' := { stream with viewers := v, viewerCount := v.card }
      ({ w with
          activeStreams := mapSet w.activeStreams streamId s',
          rooms := roomLeave w.rooms streamId sid },
       [(Target.sock stream.streamer, Msg.viewerLeft sid v.card)])

/-- The `end-webrtc-stream` handler: nothing happens if the stream is absent.
Otherwise the Supabase update runs first; a returned error object is only
logged, after which (and likewise on success) the handler broadcasts
`webrtc-stream-ended` to the stream's room and deletes the registry entry. A
thrown promise jumps to the `catch` before the broadcast and delete run. -/
def endWebrtcStream (w : World) (streamId : String) (db : DbOutcome) :
    World × List Emit :=
  match mapGet w.activeStreams streamId with
  | none => (w, [])
  | some _ =>
      match db with
      | DbOutcome.thrown => (w, [])
      | _ =>
          ({ w with activeStreams := mapDelete w.activeStreams streamId },
           [(Target.room streamId, Msg.webrtcStreamEnded streamId)])

/-- One iteration of the `disconnect` handler's loop over
`activeStreams.entries()`: a session owned by the disconnecting socket is
dropped after an `io.to(streamId)` ended-broadcast; any other session has the
socket deleted from its viewer set, `viewerCount` recomputed and its streamer
notified with `viewer-left`. Returns the surviving entry and the emits. -/
def disconnectStep (sid : String) (e : String × Session) :
    Option (String × Session) × List Emit :=
  if e.2.streamer == sid then
    (none, [(Target.room e.1, Msg.webrtcStreamEnded e.1)])
  else
    let v := e.2.viewers.erase sid
    (some (e.1, { e.2 with viewers := v, viewerCount := v.card }),
     [(Target.sock e.2.streamer, Msg.viewerLeft sid v.card)])

/-- The `disconnect` handler: iterate over every registry entry in insertion
order applying `disconnectStep` (the loop only ever deletes or updates the
current entry, so the mutation-during-iteration is a plain map/filter). -/
def onDisconnect (w : World) (sid : String) : World × List Emit :=
  ({ w with
      activeStreams :=
        w.activeStreams.filterMap (fun e => (disconnectStep sid e).1) },
   w.activeStreams.flatMap (fun e => (disconnectStep sid e).2))

/-! ## Modern variant (part_009): step traces

For the claims about the *order* of the handler's effects, the handlers that
talk to the database also get a trace embedding: the list of atomic actions
they perform, in source order. -/

/-- An atomic action of a handler, in source order: the awaited Supabase
update setting status `live` (resp. `ended`) keyed by `stream_key`, the
registry insert/delete, viewer-set removal, room join/leave, and an emit. -/
inductive Step where
  | dbUpdateLive (streamKey : String)
  | dbUpdateEnded (streamKey : String)
  | insertSession (streamId : String)
  | deleteSession (streamId : String)
  | eraseViewer (streamId sid : String)
  | joinRoom (sid roomId : String)
  | leaveRoom (sid roomId : String)
  | send (t : Target) (m : Msg)
deriving DecidableEq

/-- Trace of `start-webrtc-stream`: the Supabase update is awaited first in
every case; only when it resolves without error does the handler insert the
session, join the room and emit the success event. -/
def startWebrtcStreamSteps (sid streamId streamKey : String) (db : DbOutcome) :
    List Step :=
  match db with
  | DbOutcome.errorResult =>
      [Step.dbUpdateLive streamKey,
       Step.send (Target.sock sid)
         (Msg.streamStartError "Failed to update stream status")]
  | DbOutcome.thrown =>
      [Step.dbUpdateLive streamKey,
       Step.send (Target.sock sid) (Msg.streamStartError "Failed to start stream")]
  | DbOutcome.ok =>
      [Step.dbUpdateLive streamKey,
       Step.insertSession streamId,
       Step.joinRoom sid streamId,
       Step.send (Target.sock sid) (Msg.webrtcStreamStarted streamId)]

/-- Trace of `end-webrtc-stream`: nothing if the stream is absent; otherwise
the Supabase `ended` update runs first (an error object is only logged), then
the ended-broadcast and the registry delete — unless the update threw, which
skips them via the `catch`. -/
def endWebrtcStreamSteps (streams : List (String × Session))
    (streamId streamKey : String) (db : DbOutcome) : List Step :=
  match mapGet streams streamId with
  | none => []
  | some _ =>
      match db with
      | DbOutcome.thrown => [Step.dbUpdateEnded streamKey]
      | _ =>
          [Step.dbUpdateEnded streamKey,
           Step.send (Target.room streamId) (Msg.webrtcStreamEnded streamId),
           Step.deleteSession streamId]

/-- Trace of the `disconnect` handler: per registry entry, either the
ended-broadcast plus registry delete (sessions owned by the disconnecting
socket) or the viewer-set removal plus `viewer-left` notification. No database
action appears anywhere in this handler. -/
def onDisconnectSteps (streams : List (String × Session)) (sid : String) :
    List Step :=
  streams.flatMap (fun e =>
    if e.2.streamer == sid then
      [Step.send (Target.room e.1) (Msg.webrtcStreamEnded e.1),
       Step.deleteSession e.1]
    else
      [Step.eraseViewer e.1 sid,
       Step.send (Target.sock e.2.streamer)
         (Msg.viewerLeft sid ((e.2.viewers.erase sid).card))])

/-- Whether a step is a database update (either direction). -/
def Step.isDbStep : Step → Bool
  | Step.dbUpdateLive _ => true
  | Step.dbUpdateEnded _ => true
  | _ => false

/-! ## Legacy variant (part_010): event handlers -/

/-- Legacy `start-stream`: unconditionally `activeStreams.set(streamId, ...)`
with empty viewers, then `socket.join(streamId)` and `stream-started` to the
sender. No database call, no presence check. -/
def startStream (w : LegacyWorld) (sid streamId streamKey : String) (now : Nat) :
    LegacyWorld × List Emit :=
  let s : LegacySession :=
    { streamer := sid, viewers := ∅, streamKey := streamKey, createdAt := now }
  ({ w with
      activeStreams := mapSet w.activeStreams streamId s,
      rooms := roomJoin w.rooms streamId sid },
   [(Target.sock sid, Msg.streamStarted streamId)])

/-- Legacy `join-stream`: `stream-not-found` if absent; else add sender to
`viewers`, join the room, notify the streamer, answer the sender. Viewer count
in the emits is `viewers.size` after the add. -/
def joinStream (w : LegacyWorld) (sid streamId : String) :
    LegacyWorld × List Emit :=
  match mapGet w.activeStreams streamId with
  | none => (w, [(Target.sock sid, Msg.streamNotFound streamId)])
  | some stream =>
      let v := insert sid stream.viewers
      let s' := { stream with viewers := v }
      ({ w with
          activeStreams := mapSet w.activeStreams streamId s',
          rooms := roomJoin w.rooms streamId sid },
       [(Target.sock stream.streamer, Msg.viewerJoined sid v.card),
        (Target.sock sid, Msg.streamJoined streamId stream.streamer v.card)])

/-- Legacy `leave-stream`: if the stream exists, delete the sender from
`viewers` and notify the streamer with `viewer-left`; then, only when the
viewer set is now empty AND the sender is the streamer, delete the session.
In all cases `socket.leave(streamId)`. -/
def leaveStream (w : LegacyWorld) (sid streamId : String) :
    LegacyWorld × List Emit :=
  match mapGet w.activeStreams streamId with
  | none => ({ w with rooms := roomLeave w.rooms streamId sid }, [])
  | some stream =>
      let v := stream.viewers.erase sid
      let s' := { stream with viewers := v }
      let streams1 := mapSet w.activeStreams streamId s'
      let streams2 :=
        if v.card = 0 && stream.streamer == sid then
          mapDelete streams1 streamId
        else streams1
      ({ w with
          activeStreams := streams2,
          rooms := roomLeave w.rooms streamId sid },
       [(Target.sock stream.streamer, Msg.viewerLeft sid v.card)])

/-- Legacy `end-stream`: if the stream exists, broadcast `stream-ended` to the
room and delete the registry entry. -/
def endStream (w : LegacyWorld) (streamId : String) : LegacyWorld × List Emit :=
  match mapGet w.activeStreams streamId with
  | none => (w, [])
  | some _ =>
      ({ w with activeStreams := mapDelete w.activeStreams streamId },
       [(Target.room streamId, Msg.streamEnded streamId)])

/-! ## Registry operations (spec §4.1 contract, as implemented)

The spec names `createSession` / `addViewer` / `removeViewer` /
`removeSession` as the registry contract. In the code these are the registry
effects of the corresponding handlers: `removeViewer` is
`stream.viewers.delete(id)` followed by `viewerCount = viewers.size`
(leave/disconnect handlers), `removeSession` is `activeStreams.delete(id)`
(end/disconnect handlers), `createSession` is the unguarded
`activeStreams.set(id, {...})` of the start handler. -/

/-- `removeViewer(streamId, connectionId)`: the registry effect of the leave
handler — delete from the viewer set and recompute `viewerCount`; absent
sessions untouched. -/
def removeViewer (streams : List (String × Session)) (streamId cid : String) :
    List (String × Session) :=
  match mapGet streams streamId with
  | none => streams
  | some s =>
      let v := s.viewers.erase cid
      mapSet streams streamId { s with viewers := v, viewerCount := v.card }

/-- `removeSession(streamId)`: the registry effect of the end/disconnect
handlers — `activeStreams.delete(streamId)`. -/
def removeSession (streams : List (String × Session)) (streamId : String) :
    List (String × Session) :=
  mapDelete streams streamId

/-- A create/remove operation on the registry, for reasoning about arbitrary
operation sequences. `create` carries the full session the start handler
builds; it is the unguarded `Map.set` of the code. -/
inductive RegOp where
  | create (streamId : String) (s : Session)
  | remove (streamId : String)

/-- Apply one registry operation. -/
def applyRegOp (streams : List (String × Session)) : RegOp →
    List (String × Session)
  | RegOp.create streamId s => mapSet streams streamId s
  | RegOp.remove streamId => removeSession streams streamId

/-- Apply a sequence of registry operations starting from the empty registry. -/
def applyRegOps (ops : List RegOp) : List (String × Session) :=
  ops.foldl applyRegOp []

/-! ## Map lemmas -/

/-- The registry well-formedness a JS `Map` guarantees: keys are distinct. -/
def keysNodup {α : Type} (m : List (String × α)) : Prop :=
  (mapKeys m).Nodup

theorem mapGet_mapSet {α : Type} (m : List (String × α)) (k k' : String)
    (v : α) :
    mapGet (mapSet m k v) k' = if k' = k then some v else mapGet m k' := by
  induction m with
  | nil =>
      by_cases h : k' = k
      · subst h
        simp [mapGet, mapSet]
      · have hk : (k == k') = false := beq_false_of_ne (fun h' => h h'.symm)
        simp [mapGet, mapSet, hk, h]
  | cons p t ih =>
      by_cases hp : p.1 = k
      · by_cases h : k' = k
        · subst h
          simp [mapGet, mapSet, hp]
        · have hk : (k == k') = false := beq_false_of_ne (fun h' => h h'.symm)
          simp [mapGet, mapSet, hp, hk, h]
      · have hpb : (p.1 == k) = false := beq_false_of_ne hp
        by_cases h : k' = k
        · subst h
          simp [mapGet, mapSet, hpb, hp, ih]
        · simp [mapGet, mapSet, hpb, ih, h]

theorem mapSet_mapSet_same {α : Type} (m : List (String × α)) (k : String)
    (v : α) : mapSet (mapSet m k v) k v = mapSet m k v := by
  induction m with
  | nil => simp [mapSet]
  | cons p t ih =>
      by_cases hp : p.1 = k <;> simp [mapSet, hp, ih]

theorem mapDelete_mapDelete {α : Type} (m : List (String × α)) (k : String) :
    mapDelete (mapDelete m k) k = mapDelete m k := by
  simp [mapDelete, List.filter_filter]

theorem mapGet_eq_none_iff {α : Type} (m : List (String × α)) (k : String) :
    mapGet m k = none ↔ k ∉ mapKeys m := by
  induction m with
  | nil => simp [mapGet, mapKeys]
  | cons p t ih =>
      by_cases hp : p.1 = k
      · simp [mapGet, mapKeys, hp]
      · have hpb : (p.1 == k) = false := beq_false_of_ne hp
        have hkp : ¬ k = p.1 := fun h' => hp h'.symm
        simp [mapGet, mapKeys, hpb, hkp] at ih ⊢
        exact ih

theorem mapDelete_eq_self {α : Type} (m : List (String × α)) (k : String)
    (h : mapGet m k = none) : mapDelete m k = m := by
  rw [mapGet_eq_none_iff] at h
  rw [mapDelete, List.filter_eq_self]
  intro p hp
  simp only [bne_iff_ne, ne_eq, decide_eq_true_eq]
  intro hk
  exact h (hk ▸ List.mem_map_of_mem Prod.fst hp)

theorem not_mem_mapKeys_mapDelete {α : Type} (m : List (String × α))
    (k : String) : k ∉ mapKeys (mapDelete m k) := by
  intro h
  simp only [mapKeys, mapDelete, List.mem_map] at h
  obtain ⟨p, hp, hk⟩ := h
  have := List.of_mem_filter hp
  simp [hk] at this

theorem mapGet_mem {α : Type} {m : List (String × α)} {k : String} {v : α}
    (h : mapGet m k = some v) : (k, v) ∈ m := by
  induction m with
  | nil => simp [mapGet] at h
  | cons p t ih =>
      obtain ⟨a, b⟩ := p
      by_cases hp : a = k
      · subst hp
        simp [mapGet] at h
        subst h
        exact List.mem_cons_self _ _
      · simp [mapGet, hp] at h
        exact List.mem_cons_of_mem _ (ih h)

theorem mapKeys_mapSet_of_mem {α : Type} {m : List (String × α)} {k : String}
    (v : α) (h : k ∈ mapKeys m) : mapKeys (mapSet m k v) = mapKeys m := by
  induction m with
  | nil => simp [mapKeys] at h
  | cons p t ih =>
      by_cases hp : p.1 = k
      · simp [mapSet, mapKeys, hp]
      · have ht : k ∈ mapKeys t := by
          simp only [mapKeys, List.map_cons, List.mem_cons] at h
          rcases h with h | h
          · exact absurd h.symm hp
          · exact h
        have hih := ih ht
        simp only [mapKeys] at hih ⊢
        simp [mapSet, hp, hih]

theorem mapSet_of_not_mem {α : Type} {m : List (String × α)} {k : String}
    (v : α) (h : k ∉ mapKeys m) : mapSet m k v = m ++ [(k, v)] := by
  induction m with
  | nil => simp [mapSet]
  | cons p t ih =>
      simp only [mapKeys, List.map_cons, List.mem_cons, not_or] at h
      have hp : p.1 ≠ k := fun h' => h.1 h'.symm
      have hih := ih (by simpa [mapKeys] using h.2)
      simp [mapSet, hp, hih]

theorem keysNodup_mapSet {α : Type} {m : List (String × α)} (k : String)
    (v : α) (h : keysNodup m) : keysNodup (mapSet m k v) := by
  by_cases hk : k ∈ mapKeys m
  · rw [keysNodup, mapKeys_mapSet_of_mem v hk]
    exact h
  · rw [keysNodup, mapSet_of_not_mem v hk]
    simp only [mapKeys, List.map_append, List.map_cons, List.map_nil]
    refine List.Nodup.append h (List.nodup_singleton k) ?_
    intro a ha hak
    simp only [List.mem_singleton] at hak
    exact hk (hak ▸ ha)

theorem keysNodup_mapDelete {α : Type} {m : List (String × α)} (k : String)
    (h : keysNodup m) : keysNodup (mapDelete m k) := by
  have hsub : List.Sublist (mapKeys (mapDelete m k)) (mapKeys m) :=
    List.Sublist.map Prod.fst (List.filter_sublist m)
  exact List.Nodup.sublist hsub h

theorem mapSet_eq_self {α : Type} {m : List (String × α)} {k : String} {v : α}
    (h : mapGet m k = some v) : mapSet m k v = m := by
  induction m with
  | nil => simp [mapGet] at h
  | cons p t ih =>
      obtain ⟨a, b⟩ := p
      by_cases hp : a = k
      · subst hp
        simp [mapGet] at h
        simp [mapSet, h]
      · simp [mapGet, hp] at h
        simp [mapSet, hp, ih h]

theorem mem_mapKeys_of_mapGet {α : Type} {m : List (String × α)} {k : String}
    {v : α} (h : mapGet m k = some v) : k ∈ mapKeys m :=
  List.mem_map_of_mem Prod.fst (mapGet_mem h)

theorem mapGet_append_of_none {α : Type} {m : List (String × α)}
    (l : List (String × α)) {k : String} (h : mapGet m k = none) :
    mapGet (m ++ l) k = mapGet l k := by
  induction m with
  | nil => simp
  | cons p t ih =>
      by_cases hp : p.1 = k
      · simp [mapGet, hp] at h
      · simp [mapGet, hp] at h ⊢
        exact ih h

theorem mem_unique_of_keysNodup {α : Type} {m : List (String × α)} {k : String}
    {a b : α} (h : keysNodup m) (ha : (k, a) ∈ m) (hb : (k, b) ∈ m) : a = b := by
  induction m with
  | nil => cases ha
  | cons p t ih =>
      have h1 : p.1 ∉ mapKeys t := by
        simp only [keysNodup, mapKeys, List.map_cons, List.nodup_cons] at h
        exact h.1
      have h2 : keysNodup t := by
        simp only [keysNodup, mapKeys, List.map_cons, List.nodup_cons] at h
        exact h.2
      rcases List.mem_cons.mp ha with ha' | ha' <;>
        rcases List.mem_cons.mp hb with hb' | hb'
      · have hab : (k, a) = (k, b) := ha'.trans hb'.symm
        exact congrArg Prod.snd hab
      · refine absurd (List.mem_map_of_mem Prod.fst hb') ?_
        rw [← ha'] at h1
        simpa [mapKeys] using h1
      · refine absurd (List.mem_map_of_mem Prod.fst ha') ?_
        rw [← hb'] at h1
        simpa [mapKeys] using h1
      · exact ih h2 ha' hb'

/-- A socket that joins a room is a member of that room afterwards. -/
theorem mem_roomMembers_roomJoin (rooms : List (String × List String))
    (roomId sid : String) :
    sid ∈ roomMembers (roomJoin rooms roomId sid) roomId := by
  unfold roomJoin
  cases hm : mapGet rooms roomId with
  | some members =>
      by_cases hc : sid ∈ members
      · simp [roomMembers, hc, hm]
      · simp [roomMembers, hc, mapGet_mapSet]
  | none =>
      simp [roomMembers, mapGet_append_of_none _ hm, mapGet]

/-- Over entries none of which is keyed `streamId`, the disconnect loop emits
no `webrtc-stream-ended` for `streamId`. -/
theorem disconnect_ended_filter_nil {t : List (String × Session)}
    {streamId : String} (sid : String) (hnot : streamId ∉ mapKeys t) :
    (t.flatMap (fun e => (disconnectStep sid e).2)).filter
        (fun e => e.2 == Msg.webrtcStreamEnded streamId) = [] := by
  induction t with
  | nil => rfl
  | cons p t ih =>
      simp only [mapKeys, List.map_cons, List.mem_cons, not_or] at hnot
      have hp : p.1 ≠ streamId := fun h => hnot.1 h.symm
      have ht := ih (by simpa [mapKeys] using hnot.2)
      rw [List.flatMap_cons, List.filter_append, ht]
      by_cases hs : p.2.streamer = sid <;>
        simp [disconnectStep, hs, hp]

/-- On a streamer disconnect, the ended-broadcast for that stream appears in
the emitted list exactly once, with the stream's room as its target. -/
theorem disconnect_ended_filter {streams : List (String × Session)}
    {streamId sid : String} {s : Session} (hnd : keysNodup streams)
    (hmem : (streamId, s) ∈ streams) (hstr : s.streamer = sid) :
    (streams.flatMap (fun e => (disconnectStep sid e).2)).filter
        (fun e => e.2 == Msg.webrtcStreamEnded streamId) =
      [(Target.room streamId, Msg.webrtcStreamEnded streamId)] := by
  induction streams with
  | nil => cases hmem
  | cons p t ih =>
      have h1 : p.1 ∉ mapKeys t := by
        simp only [keysNodup, mapKeys, List.map_cons, List.nodup_cons] at hnd
        exact hnd.1
      have h2 : keysNodup t := by
        simp only [keysNodup, mapKeys, List.map_cons, List.nodup_cons] at hnd
        exact hnd.2
      rcases List.mem_cons.mp hmem with hp | hp
      · have hkey : p.1 = streamId := by rw [← hp]
        have h1' : streamId ∉ mapKeys t := hkey ▸ h1
        have ht := disconnect_ended_filter_nil sid h1'
        rw [List.flatMap_cons, List.filter_append, ht]
        have hps : p.2.streamer = sid := by rw [← hp]; exact hstr
        simp [disconnectStep, hps, hkey]
      · have hp1 : p.1 ≠ streamId := by
          intro h
          apply h1
          rw [h]
          exact List.mem_map_of_mem Prod.fst hp
        have ht := ih h2 hp
        rw [List.flatMap_cons, List.filter_append, ht]
        by_cases hs : p.2.streamer = sid <;>
          simp [disconnectStep, hs, hp1]

/-- The disconnect handler performs no database action at all. -/
theorem onDisconnectSteps_no_db (streams : List (String × Session))
    (sid : String) :
    (onDisconnectSteps streams sid).all (fun st => !st.isDbStep) = true := by
  simp only [onDisconnectSteps, List.all_eq_true]
  intro st hst
  rw [List.mem_flatMap] at hst
  obtain ⟨e, _, hst⟩ := hst
  by_cases hs : e.2.streamer = sid <;> simp [hs] at hst <;>
    rcases hst with h | h <;> simp [h, Step.isDbStep]

/-- A streamer's disconnect removes that stream from the registry. -/
theorem onDisconnect_removes {w : World} {streamId sid : String} {s : Session}
    (hnd : keysNodup w.activeStreams) (hmem : (streamId, s) ∈ w.activeStreams)
    (hstr : s.streamer = sid) :
    streamId ∉ mapKeys (onDisconnect w sid).1.activeStreams := by
  intro hmem'
  simp only [onDisconnect, mapKeys, List.mem_map] at hmem'
  obtain ⟨p, hp, hkey⟩ := hmem'
  rw [List.mem_filterMap] at hp
  obtain ⟨e, he, hstep⟩ := hp
  by_cases hs : e.2.streamer = sid
  · simp [disconnectStep, hs] at hstep
  · simp [disconnectStep, hs] at hstep
    have hkey' : e.1 = streamId := by
      rw [← hstep] at hkey
      exact hkey
    have he' : (streamId, e.2) ∈ w.activeStreams := by
      rw [← hkey']
      exact he
    have := mem_unique_of_keysNodup hnd he' hmem
    rw [this, hstr] at hs
    exact hs rfl

theorem keysNodup_applyRegOps_aux (ops : List RegOp)
    (m : List (String × Session)) (h : keysNodup m) :
    keysNodup (ops.foldl applyRegOp m) := by
  induction ops generalizing m with
  | nil => exact h
  | cons op rest ih =>
      refine ih _ ?_
      cases op with
      | create streamId s => exact keysNodup_mapSet _ _ h
      | remove streamId => exact keysNodup_mapDelete _ h

/-! ## Claims -/

/-- The session held by connection "A" before a duplicate start request. -/
def c1Session : Session :=
  { streamer := "A", viewers := {"V"}, streamKey := "k1", title := "t1",
    description := "d1", createdAt := 5, viewerCount := 1 }

/-- A registry already holding `streamId` "s1", owned by "A" with viewer "V". -/
def c1World : World :=
  { activeStreams := [("s1", c1Session)],
    rooms := [("s1", ["A", "V"])],
    connected := ["A", "V", "B"] }

/-- C1: counterexample — a `start-webrtc-stream` whose `streamId` is already
present in the registry does not fail with a Conflict/AlreadyExists error: the
handler reports success to the sender, and the existing session (streamer "A",
viewer "V", streamKey "k1", createdAt 5) is replaced wholesale by a fresh
session owned by the new sender "B". -/
theorem c1_counterexample :
    (startWebrtcStream c1World "B" "s1" "k2" "t2" "d2" 9 DbOutcome.ok).2 =
      [(Target.sock "B", Msg.webrtcStreamStarted "s1")] ∧
    mapGet (startWebrtcStream c1World "B" "s1" "k2" "t2" "d2" 9
        DbOutcome.ok).1.activeStreams "s1" =
      some { streamer := "B", viewers := ∅, streamKey := "k2", title := "t2",
             description := "d2", createdAt := 9, viewerCount := 0 } ∧
    ¬ mapGet (startWebrtcStream c1World "B" "s1" "k2" "t2" "d2" 9
        DbOutcome.ok).1.activeStreams "s1" = some c1Session := by
  refine ⟨rfl, rfl, ?_⟩
  decide

/-- C1 (amended): a start-session message whose `streamId` is already present
does not conflict — on a successful store update the handler overwrites the
existing entry with a fresh session owned by the sender (empty viewer set, new
streamKey/metadata/createdAt) and reports success; nevertheless, for all
sequences of createSession/removeSession operations the registry never holds
two sessions with the same `streamId` (keys stay duplicate-free). -/
theorem c1_amended (w : World)
    (sid streamId streamKey title description : String) (now : Nat)
    (s₀ : Session) (h : mapGet w.activeStreams streamId = some s₀) :
    mapGet (startWebrtcStream w sid streamId streamKey title description now
        DbOutcome.ok).1.activeStreams streamId =
      some { streamer := sid, viewers := ∅, streamKey := streamKey,
             title := title, description := description, createdAt := now,
             viewerCount := 0 } ∧
    (startWebrtcStream w sid streamId streamKey title description now
        DbOutcome.ok).2 =
      [(Target.sock sid, Msg.webrtcStreamStarted streamId)] ∧
    ∀ ops : List RegOp, keysNodup (applyRegOps ops) := by
  refine ⟨?_, rfl, ?_⟩
  · simp [startWebrtcStream, mapGet_mapSet]
  · intro ops
    exact keysNodup_applyRegOps_aux ops [] (by simp [keysNodup, mapKeys])

/-- Witness for `c1_amended` at the concrete duplicate-start scenario. -/
theorem c1_witness :
    mapGet c1World.activeStreams "s1" = some c1Session ∧
    mapGet (startWebrtcStream c1World "B" "s1" "k2" "t2" "d2" 9
        DbOutcome.ok).1.activeStreams "s1" =
      some { streamer := "B", viewers := ∅, streamKey := "k2", title := "t2",
             description := "d2", createdAt := 9, viewerCount := 0 } :=
  ⟨rfl, (c1_amended c1World "B" "s1" "k2" "t2" "d2" 9 c1Session rfl).1⟩

/-- C2: counterexample — when the store's status update fails
(`DbOutcome.errorResult`), the in-memory session is NOT created (the registry
stays empty) and the sender receives `stream-start-error`, not a started
report: the persistence failure does block the real-time path. -/
theorem c2_counterexample :
    (startWebrtcStream { activeStreams := [], rooms := [], connected := ["A"] }
        "A" "s1" "k1" "t" "d" 0 DbOutcome.errorResult).1.activeStreams = [] ∧
    (startWebrtcStream { activeStreams := [], rooms := [], connected := ["A"] }
        "A" "s1" "k1" "t" "d" 0 DbOutcome.errorResult).2 =
      [(Target.sock "A",
        Msg.streamStartError "Failed to update stream status")] :=
  ⟨rfl, rfl⟩

/-- C2 (amended): for every start-session request, if the external store's
status update fails — whether it resolves with an error object or throws —
the handler surfaces a `stream-start-error` event to the sender and leaves the
world (registry and rooms) entirely unchanged: the session is not created and
is not reported started. -/
theorem c2_amended (w : World)
    (sid streamId streamKey title description : String) (now : Nat) :
    startWebrtcStream w sid streamId streamKey title description now
        DbOutcome.errorResult =
      (w, [(Target.sock sid,
            Msg.streamStartError "Failed to update stream status")]) ∧
    startWebrtcStream w sid streamId streamKey title description now
        DbOutcome.thrown =
      (w, [(Target.sock sid,
            Msg.streamStartError "Failed to start stream")]) :=
  ⟨rfl, rfl⟩

/-- C3: counterexample — in the start-session trace the registry insertion
does NOT precede the store call: at the concrete trace for sender "A",
stream "s1", key "k1" with a successful update, the insert's index is not
below the database call's index (the call comes first). -/
theorem c3_counterexample :
    ¬ ((startWebrtcStreamSteps "A" "s1" "k1" DbOutcome.ok).indexOf
          (Step.insertSession "s1") <
        (startWebrtcStreamSteps "A" "s1" "k1" DbOutcome.ok).indexOf
          (Step.dbUpdateLive "k1")) := by
  decide

/-- C3 (amended): in the start-session handler the suspending store call is
issued BEFORE the in-memory registry mutation: the first step of every trace
is the database update and no insertion has happened by then; on a successful
outcome the insertion follows later in the trace, and on a failed outcome no
insertion ever occurs — so while the store call is in flight the stream is
absent from the registry (callers see it as live only after the persistence
write returns). -/
theorem c3_amended (sid streamId streamKey : String) (db : DbOutcome) :
    (startWebrtcStreamSteps sid streamId streamKey db).take 1 =
      [Step.dbUpdateLive streamKey] ∧
    (db = DbOutcome.ok →
      Step.insertSession streamId ∈
        (startWebrtcStreamSteps sid streamId streamKey db).drop 1) ∧
    (db ≠ DbOutcome.ok →
      Step.insertSession streamId ∉
        startWebrtcStreamSteps sid streamId streamKey db) := by
  cases db <;> simp [startWebrtcStreamSteps]

/-- Witness for `c3_amended`: at the successful concrete trace, the insert is
strictly after the initial database step. -/
theorem c3_witness :
    Step.insertSession "s1" ∈
      (startWebrtcStreamSteps "A" "s1" "k1" DbOutcome.ok).drop 1 :=
  (c3_amended "A" "s1" "k1" DbOutcome.ok).2.1 rfl

/-- A session owned by "A" with viewers "B" and "C". -/
def c4Session : Session :=
  { streamer := "A", viewers := {"B", "C"}, streamKey := "k1", title := "t",
    description := "d", createdAt := 0, viewerCount := 2 }

/-- World for the streamer-disconnect scenario: "B" and "C" joined the room of
"s1" (so they are prior members), everyone is connected. -/
def c4World : World :=
  { activeStreams := [("s1", c4Session)],
    rooms := [("s1", ["A", "B", "C"])],
    connected := ["A", "B", "C"] }

/-- C4: counterexample — the streamer-disconnect handler does NOT behave
identically to an explicit end-session: its trace contains no database action
at all (the persisted status is never set to "ended"), whereas the explicit
end-session trace for the same state begins with the `ended` store update. -/
theorem c4_counterexample :
    (onDisconnectSteps [("s1", c4Session)] "A").all
        (fun st => !st.isDbStep) = true ∧
    (endWebrtcStreamSteps [("s1", c4Session)] "s1" "k1" DbOutcome.ok).any
        Step.isDbStep = true := by
  constructor
  · decide
  · decide

/-- C4 (amended): on a disconnect of a session's streamer, the session is
removed from the registry (so removal happens exactly once — a second
disconnect finds nothing), and the `webrtc-stream-ended` broadcast is
delivered exactly once to every connected member of the session's room —
and any viewer that joins through the join handler is put into that room;
however, unlike explicit end-session, the disconnect handler performs no
persisted status update (no onEnd): its trace contains no database step. -/
theorem c4_amended (w : World) (streamId sid c : String) (s : Session)
    (hnd : keysNodup w.activeStreams)
    (hmem : (streamId, s) ∈ w.activeStreams)
    (hstr : s.streamer = sid)
    (hc : c ∈ roomMembers w.rooms streamId)
    (hcc : c ∈ w.connected) :
    streamId ∉ mapKeys (onDisconnect w sid).1.activeStreams ∧
    deliverCount w (onDisconnect w sid).2
        (Msg.webrtcStreamEnded streamId) c = 1 ∧
    (onDisconnectSteps w.activeStreams sid).all
        (fun st => !st.isDbStep) = true ∧
    (∀ (w' : World) (sid' streamId' : String) (s' : Session),
      mapGet w'.activeStreams streamId' = some s' →
      sid' ∈ roomMembers (joinWebrtcStream w' sid' streamId').1.rooms
        streamId') := by
  refine ⟨onDisconnect_removes hnd hmem hstr, ?_,
    onDisconnectSteps_no_db _ _, ?_⟩
  · have hfil := disconnect_ended_filter hnd hmem hstr
    have hcp : deliverCount w (onDisconnect w sid).2
        (Msg.webrtcStreamEnded streamId) c =
        ((w.activeStreams.flatMap (fun e => (disconnectStep sid e).2)).filter
          (fun e => e.2 == Msg.webrtcStreamEnded streamId)).countP
          (fun e => Target.covers w e.1 c) := by
      rw [List.countP_filter]
      rfl
    rw [hcp, hfil]
    simp [List.countP_cons, Target.covers]
    exact ⟨hc, hcc⟩
  · intro w' sid' streamId' s' hm'
    simp only [joinWebrtcStream, hm']
    exact mem_roomMembers_roomJoin _ _ _

/-- Witness for `c4_amended`: at the concrete scenario, the disconnect of "A"
drops "s1" from the registry and viewer "C" (a room member) receives the
ended-broadcast exactly once. -/
theorem c4_witness :
    "s1" ∉ mapKeys (onDisconnect c4World "A").1.activeStreams ∧
    deliverCount c4World (onDisconnect c4World "A").2
        (Msg.webrtcStreamEnded "s1") "C" = 1 :=
  ⟨(c4_amended c4World "s1" "A" "C" c4Session
      (show (mapKeys c4World.activeStreams).Nodup by decide) (by decide) rfl
      (by decide) (by decide)).1,
   (c4_amended c4World "s1" "A" "C" c4Session
      (show (mapKeys c4World.activeStreams).Nodup by decide) (by decide) rfl
      (by decide) (by decide)).2.1⟩

/-- The session of the join-own-stream scenario: "A" streams "s1". -/
def c5Session : Session :=
  { streamer := "A", viewers := ∅, streamKey := "k1", title := "t",
    description := "d", createdAt := 0, viewerCount := 0 }

/-- World where "A" is the streamer of "s1" with no viewers yet. -/
def c5World : World :=
  { activeStreams := [("s1", c5Session)],
    rooms := [("s1", ["A"])], connected := ["A"] }

/-- What the registry holds for "s1" after "A" joins its own stream. -/
def c5ResultSession : Session :=
  { streamer := "A", viewers := {"A"}, streamKey := "k1", title := "t",
    description := "d", createdAt := 0, viewerCount := 1 }

/-- C5: counterexample — a `join-webrtc-stream` from the session's own
streamer connection DOES add the streamer to the session's viewer set: after
"A" (the streamer of "s1") joins "s1", the stored session has
`streamer = "A"` and `"A" ∈ viewers`, violating the claimed invariant. -/
theorem c5_counterexample :
    mapGet (joinWebrtcStream c5World "A" "s1").1.activeStreams "s1" =
      some c5ResultSession ∧
    c5ResultSession.streamer ∈ c5ResultSession.viewers := by
  constructor
  · decide
  · decide

/-- C5 (amended): the join handler inserts the sender into the viewer set
unconditionally — there is no streamer guard — so when the sender is the
session's own streamer, the registry afterwards holds a session whose
streamer is also a member of its viewers set. -/
theorem c5_amended (w : World) (sid streamId : String) (s : Session)
    (h : mapGet w.activeStreams streamId = some s) :
    mapGet (joinWebrtcStream w sid streamId).1.activeStreams streamId =
      some { s with viewers := insert sid s.viewers,
                    viewerCount := (insert sid s.viewers).card } ∧
    (s.streamer = sid →
      ({ s with
          viewers := insert sid s.viewers,
          viewerCount := (insert sid s.viewers).card } : Session).streamer ∈
      ({ s with
          viewers := insert sid s.viewers,
          viewerCount := (insert sid s.viewers).card } : Session).viewers) := by
  constructor
  · simp [joinWebrtcStream, h, mapGet_mapSet]
  · intro hs
    simp [hs]

/-- Witness for `c5_amended` at the join-own-stream scenario. -/
theorem c5_witness :
    mapGet (joinWebrtcStream c5World "A" "s1").1.activeStreams "s1" =
      some { c5Session with
              viewers := insert "A" c5Session.viewers,
              viewerCount := (insert "A" c5Session.viewers).card } ∧
    ({ c5Session with
        viewers := insert "A" c5Session.viewers,
        viewerCount := (insert "A" c5Session.viewers).card } :
        Session).streamer ∈
      ({ c5Session with
          viewers := insert "A" c5Session.viewers,
          viewerCount := (insert "A" c5Session.viewers).card } :
        Session).viewers :=
  ⟨(c5_amended c5World "A" "s1" c5Session rfl).1,
   (c5_amended c5World "A" "s1" c5Session rfl).2 rfl⟩

/-- Legacy session for the leave scenario: "A" streams, "B" is the only
viewer. -/
def c6Session : LegacySession :=
  { streamer := "A", viewers := {"B"}, streamKey := "k", createdAt := 0 }

/-- Legacy world for the leave scenario. -/
def c6World : LegacyWorld :=
  { activeStreams := [("s1", c6Session)], rooms := [("s1", ["A", "B"])],
    connected := ["A", "B"] }

/-- C6: counterexample — in the legacy variant, a `leave-stream` from viewer
"B" that makes the viewer set empty does NOT remove the session: removal
additionally requires the sender to be the streamer, so the session survives
with an empty viewer set while the streamer "A" is still connected. -/
theorem c6_counterexample :
    mapGet (leaveStream c6World "B" "s1").1.activeStreams "s1" =
      some { streamer := "A", viewers := ∅, streamKey := "k",
             createdAt := 0 } := by
  decide

/-- C6 (amended): in the legacy variant a leave-session removes the session
iff the viewer set is empty after the removal AND the sender is the session's
streamer (a viewer's leave never removes it, even when it empties the set);
in the modern variant a leave-session never removes the session — the
registry's key set is unchanged. -/
theorem c6_amended (w : LegacyWorld) (sid streamId : String)
    (s : LegacySession) (h : mapGet w.activeStreams streamId = some s)
    (w9 : World) (sid9 streamId9 : String) :
    (streamId ∉ mapKeys (leaveStream w sid streamId).1.activeStreams ↔
      ((s.viewers.erase sid).card = 0 ∧ s.streamer = sid)) ∧
    mapKeys (leaveWebrtcStream w9 sid9 streamId9).1.activeStreams =
      mapKeys w9.activeStreams := by
  constructor
  · simp only [leaveStream, h, Bool.and_eq_true, decide_eq_true_eq,
      beq_iff_eq]
    by_cases hcond : (s.viewers.erase sid).card = 0 ∧ s.streamer = sid
    · rw [if_pos hcond]
      exact iff_of_true (not_mem_mapKeys_mapDelete _ _) hcond
    · rw [if_neg hcond]
      refine iff_of_false (fun hno => hno ?_) hcond
      apply mem_mapKeys_of_mapGet
      rw [mapGet_mapSet, if_pos rfl]
  · cases h9 : mapGet w9.activeStreams streamId9 with
    | none => simp [leaveWebrtcStream, h9]
    | some s9 =>
        simp only [leaveWebrtcStream, h9]
        exact mapKeys_mapSet_of_mem _ (mem_mapKeys_of_mapGet h9)

/-- Witness for `c6_amended` at the concrete scenario: "B" leaving "s1" does
not remove it (the right-hand side fails because "B" is not the streamer). -/
theorem c6_witness :
    ("s1" ∉ mapKeys (leaveStream c6World "B" "s1").1.activeStreams ↔
      ((c6Session.viewers.erase "B").card = 0 ∧
        c6Session.streamer = "B")) :=
  (c6_amended c6World "B" "s1" c6Session rfl
    { activeStreams := [], rooms := [], connected := [] } "X" "s0").1

/-- C7: after every membership-changing operation of the modern variant —
viewer join, viewer leave, or the viewer branch of disconnect — the stored
session satisfies `viewerCount = |viewers|`: whatever session the registry
reports for the touched `streamId` after the operation has its counter equal
to the cardinality of its viewer set (and after a disconnect, every surviving
session does). -/
theorem c7_theorem (w : World) (sid streamId : String) (s' : Session) :
    (mapGet (joinWebrtcStream w sid streamId).1.activeStreams streamId =
        some s' → s'.viewerCount = s'.viewers.card) ∧
    (mapGet (leaveWebrtcStream w sid streamId).1.activeStreams streamId =
        some s' → s'.viewerCount = s'.viewers.card) ∧
    (mapGet (onDisconnect w sid).1.activeStreams streamId = some s' →
        s'.viewerCount = s'.viewers.card) := by
  refine ⟨?_, ?_, ?_⟩
  · intro hx
    cases h : mapGet w.activeStreams streamId with
    | none => simp [joinWebrtcStream, h, hx] at hx
    | some s0 =>
        simp [joinWebrtcStream, h, mapGet_mapSet] at hx
        rw [← hx]
  · intro hx
    cases h : mapGet w.activeStreams streamId with
    | none => simp [leaveWebrtcStream, h, hx] at hx
    | some s0 =>
        simp [leaveWebrtcStream, h, mapGet_mapSet] at hx
        rw [← hx]
  · intro hx
    have hmem := mapGet_mem hx
    simp only [onDisconnect] at hmem
    rw [List.mem_filterMap] at hmem
    obtain ⟨e, _, hstep⟩ := hmem
    by_cases hs : e.2.streamer = sid
    · simp [disconnectStep, hs] at hstep
    · simp [disconnectStep, hs] at hstep
      rw [← hstep.2]

/-- The session used to witness the viewer-count invariant. -/
def c7Session : Session :=
  { streamer := "A", viewers := {"B"}, streamKey := "k1", title := "t",
    description := "d", createdAt := 0, viewerCount := 1 }

/-- World for the viewer-count witness. -/
def c7World : World :=
  { activeStreams := [("s1", c7Session)],
    rooms := [("s1", ["A", "B"])], connected := ["A", "B", "C"] }

/-- Witness for `c7_theorem`: after viewer "C" joins "s1", the stored session
has `viewerCount = |viewers|`. -/
theorem c7_witness :
    ({ c7Session with
        viewers := insert "C" c7Session.viewers,
        viewerCount := (insert "C" c7Session.viewers).card } :
      Session).viewerCount =
    ({ c7Session with
        viewers := insert "C" c7Session.viewers,
        viewerCount := (insert "C" c7Session.viewers).card } :
      Session).viewers.card :=
  (c7_theorem c7World "C" "s1"
    { c7Session with
        viewers := insert "C" c7Session.viewers,
        viewerCount := (insert "C" c7Session.viewers).card }).1 rfl

theorem contains_eq_false_of_not_mem {l : List String} {a : String}
    (h : a ∉ l) : l.contains a = false := by
  cases hx : l.contains a
  · rfl
  · exact absurd (List.mem_of_elem_eq_true hx) h

/-- C8: each of the three signaling relays (offer/answer/ice-candidate)
leaves the world untouched and emits exactly one message, aimed at the socket
named `targetId`, carrying the payload plus the sender's id (`fromId`) and
the `streamId`; the emitted list does not depend on the registry (no
membership validation — any two worlds produce the same relay output); and
under the delivery semantics a single socket-targeted emit reaches a
connected target exactly once, any other socket zero times, and a
disconnected target zero times with no error event produced for the sender. -/
theorem c8_theorem (w w' : World) (sid streamId payload targetId : String) :
    webrtcOfferH w sid streamId payload targetId =
      (w, [(Target.sock targetId, Msg.webrtcOffer payload sid streamId)]) ∧
    webrtcAnswerH w sid streamId payload targetId =
      (w, [(Target.sock targetId, Msg.webrtcAnswer payload sid streamId)]) ∧
    webrtcIceCandidateH w sid streamId payload targetId =
      (w, [(Target.sock targetId,
            Msg.webrtcIceCandidate payload sid streamId)]) ∧
    (webrtcOfferH w sid streamId payload targetId).2 =
      (webrtcOfferH w' sid streamId payload targetId).2 ∧
    (∀ m : Msg,
      (targetId ∈ w.connected →
        deliverCount w [(Target.sock targetId, m)] m targetId = 1) ∧
      (∀ c, c ≠ targetId →
        deliverCount w [(Target.sock targetId, m)] m c = 0) ∧
      (targetId ∉ w.connected → ∀ c,
        deliverCount w [(Target.sock targetId, m)] m c = 0)) := by
  refine ⟨rfl, rfl, rfl, rfl, ?_⟩
  intro m
  refine ⟨?_, ?_, ?_⟩
  · intro ht
    have hcon : w.connected.contains targetId = true :=
      List.elem_eq_true_of_mem ht
    simp [deliverCount, Target.covers, List.countP_cons, hcon]
    exact ht
  · intro c hc
    simp [deliverCount, Target.covers, List.countP_cons, beq_false_of_ne hc]
  · intro ht c
    by_cases hct : c = targetId
    · subst hct
      have hcon : w.connected.contains c = false :=
        contains_eq_false_of_not_mem ht
      simp [deliverCount, Target.covers, List.countP_cons, hcon]
      exact ht
    · simp [deliverCount, Target.covers, List.countP_cons,
        beq_false_of_ne hct]

/-- Witness for `c8_theorem`: a concrete relay to connected target "B" is
delivered exactly once, and to disconnected "Z" zero times. -/
theorem c8_witness :
    deliverCount c7World
      [(Target.sock "B", Msg.webrtcOffer "o" "A" "s1")]
      (Msg.webrtcOffer "o" "A" "s1") "B" = 1 ∧
    deliverCount c7World
      [(Target.sock "Z", Msg.webrtcOffer "o" "A" "s1")]
      (Msg.webrtcOffer "o" "A" "s1") "Z" = 0 :=
  ⟨((c8_theorem c7World c7World "A" "s1" "o" "B").2.2.2.2
      (Msg.webrtcOffer "o" "A" "s1")).1 (by decide),
   ((c8_theorem c7World c7World "A" "s1" "o" "Z").2.2.2.2
      (Msg.webrtcOffer "o" "A" "s1")).2.2 (by decide) "Z"⟩

/-- C9: `removeViewer` and `removeSession` are idempotent on the registry:
performing either twice in a row equals performing it once; removing a
non-member viewer from a session (whose counter is consistent) is a no-op, as
is removing an absent session — and being total functions they raise no
error. -/
theorem c9_theorem (streams : List (String × Session))
    (streamId cid : String) (s : Session) :
    removeViewer (removeViewer streams streamId cid) streamId cid =
      removeViewer streams streamId cid ∧
    removeSession (removeSession streams streamId) streamId =
      removeSession streams streamId ∧
    (mapGet streams streamId = some s → cid ∉ s.viewers →
      s.viewerCount = s.viewers.card →
      removeViewer streams streamId cid = streams) ∧
    (mapGet streams streamId = none →
      removeSession streams streamId = streams) := by
  refine ⟨?_, mapDelete_mapDelete _ _, ?_, fun h => mapDelete_eq_self _ _ h⟩
  · cases h : mapGet streams streamId with
    | none => simp [removeViewer, h]
    | some s0 =>
        have h2 : mapGet (mapSet streams streamId
            { s0 with
                viewers := s0.viewers.erase cid,
                viewerCount := (s0.viewers.erase cid).card }) streamId =
            some { s0 with
                viewers := s0.viewers.erase cid,
                viewerCount := (s0.viewers.erase cid).card } := by
          rw [mapGet_mapSet]
          simp
        simp only [removeViewer, h, h2]
        simp [Finset.erase_idem, mapSet_mapSet_same]
  · intro h hnot hcount
    have hv : s.viewers.erase cid = s.viewers :=
      Finset.erase_eq_of_not_mem hnot
    simp only [removeViewer, h, hv, ← hcount]
    exact mapSet_eq_self h

/-- Witness for `c9_theorem`: removing non-member "Z" from "s1" leaves the
registry unchanged, and removing the absent session "nope" is a no-op. -/
theorem c9_witness :
    removeViewer c7World.activeStreams "s1" "Z" = c7World.activeStreams ∧
    removeSession c7World.activeStreams "nope" = c7World.activeStreams :=
  ⟨(c9_theorem c7World.activeStreams "s1" "Z" c7Session).2.2.1 rfl
      (by decide) rfl,
   (c9_theorem c7World.activeStreams "nope" "Z" c7Session).2.2.2 rfl⟩

/-- Session for the unconditional viewer-left scenario: "A" streams "s1" with
single viewer "B"; "C" was never a member. -/
def c10Session : Session :=
  { streamer := "A", viewers := {"B"}, streamKey := "k1", title := "t",
    description := "d", createdAt := 0, viewerCount := 1 }

/-- World for the unconditional viewer-left scenario. -/
def c10World : World :=
  { activeStreams := [("s1", c10Session)],
    rooms := [("s1", ["A", "B"])], connected := ["A", "B", "C"] }

/-- C10: on any disconnect, every session whose streamer differs from the
disconnecting socket has that socket deleted from its viewer set (the
surviving entry's viewers are the erased set, counter recomputed) and its
streamer is sent a `viewer-left` notification with the recomputed count —
with no membership test, so this happens even for sessions the disconnected
socket was never a member of. -/
theorem c10_theorem (w : World) (sid streamId : String) (s : Session)
    (hmem : (streamId, s) ∈ w.activeStreams) (hs : s.streamer ≠ sid) :
    (Target.sock s.streamer,
      Msg.viewerLeft sid ((s.viewers.erase sid).card)) ∈
      (onDisconnect w sid).2 ∧
    (streamId, { s with
        viewers := s.viewers.erase sid,
        viewerCount := (s.viewers.erase sid).card }) ∈
      (onDisconnect w sid).1.activeStreams := by
  constructor
  · simp only [onDisconnect]
    rw [List.mem_flatMap]
    exact ⟨(streamId, s), hmem, by simp [disconnectStep, hs]⟩
  · simp only [onDisconnect]
    rw [List.mem_filterMap]
    exact ⟨(streamId, s), hmem, by simp [disconnectStep, hs]⟩

/-- Witness for `c10_theorem`: when "C" — never a member of "s1" — disconnects,
the streamer "A" still receives a `viewer-left` notification. -/
theorem c10_witness :
    (Target.sock "A",
      Msg.viewerLeft "C" ((c10Session.viewers.erase "C").card)) ∈
      (onDisconnect c10World "C").2 :=
  (c10_theorem c10World "C" "s1" c10Session (by decide) (by decide)).1
